import Mathlib

/-!
Verification development for the `heal.aiback` inference gateway (`app.py`).

The development shallowly embeds the three core components of the source:

* the model directory `get_supported_models` (app.py lines 85-107),
* the fallback invoker `call_gemini` (app.py lines 109-141),
* the structured extractor shared by the `scan_food`, `diet_plan` and
  `chat` call sites (app.py lines 226-267, 269-307, 461-518).

Machine-level I O is replaced by explicit outcome values: an HTTP call is a
value describing the status, the content type header, whether the body parses
as JSON, and the raw body text; a transport exception is an explicit
constructor.  Raising an exception in Python is modelled as returning an
`Except.error` carrying the exception message.
-/

/-- JSON values as produced by the Python `json` module.  Numbers keep their
source lexeme (Python would build an `int` or `float`; no theorem below
depends on numeric evaluation, so the lexeme form is exact and avoids
floating point). -/
inductive Json where
  | null : Json
  | bool (b : Bool) : Json
  | num (lexeme : String) : Json
  | str (s : String) : Json
  | arr (elems : List Json) : Json
  | obj (members : List (String × Json)) : Json
deriving Repr

/-- Python whitespace test used by the regexes and by `str.strip` in the
source; covers the ASCII whitespace characters (the inputs exercised by the
theorems below are ASCII). -/
def isSpace (c : Char) : Bool :=
  c == ' ' || c == '\t' || c == '\n' || c == '\r' || c == '\x0b' || c == '\x0c'

/-- The literal token matched by the first regex alternative in
`re.sub(r'```json\s*|\s*```', '', text)` (app.py line 254). -/
def fenceJsonTok : List Char := "```json".toList

/-- The literal token matched by the second regex alternative. -/
def fenceTok : List Char := "```".toList

/-- Attempt to match the first alternative of the fence regex,
a literal three-backtick-json marker followed by greedy whitespace, at the
current position; returns the remainder after the match. -/
def matchFence1 (l : List Char) : Option (List Char) :=
  if fenceJsonTok.isPrefixOf l then some ((l.drop 7).dropWhile isSpace)
  else none

/-- Attempt to match the second alternative of the fence regex, greedy
whitespace followed by a literal three-backtick marker, at the current
position.  A shorter whitespace run would leave a whitespace character (not
a backtick) next, so only the maximal run can be followed by the marker. -/
def matchFence2 (l : List Char) : Option (List Char) :=
  let r := l.dropWhile isSpace
  if fenceTok.isPrefixOf r then some (r.drop 3) else none

/-- One left-to-right pass of `re.sub(r'```json\s*|\s*```', '', text)`:
at each position try the first alternative, then the second, else keep the
character.  Matches consume at least three characters, so fuel equal to the
input length suffices and the fuel-exhausted clause is never reached. -/
def fenceSubGo : Nat → List Char → List Char
  | 0, l => l
  | _ + 1, [] => []
  | fuel + 1, c :: rest =>
    match matchFence1 (c :: rest) with
    | some r => fenceSubGo fuel r
    | none =>
      match matchFence2 (c :: rest) with
      | some r => fenceSubGo fuel r
      | none => c :: fenceSubGo fuel rest

/-- The fence-stripping substitution of app.py line 254 (and line 299). -/
def fenceSub (l : List Char) : List Char := fenceSubGo l.length l

/-- Python `str.strip()`: drop leading and trailing whitespace. -/
def pyStrip (l : List Char) : List Char :=
  ((l.dropWhile isSpace).reverse.dropWhile isSpace).reverse

/-- The `clean_text` computation of app.py lines 254 and 299:
`re.sub(r'```json\s*|\s*```', '', text).strip()`. -/
def cleanText (s : String) : List Char := pyStrip (fenceSub s.toList)

/-- Prefix of `l` ending at the last closing brace of `l` (inclusive), when
one exists.  Implements the greedy backtracking of the `.*` in
`re.search(r"\{.*\}", clean_text, re.DOTALL)`. -/
def takeToLastClose : List Char → Option (List Char)
  | [] => none
  | c :: rest =>
    match takeToLastClose rest with
    | some t => some (c :: t)
    | none => if c == '}' then some [c] else none

/-- The candidate JSON span of app.py lines 255 and 300:
`re.search(r"\{.*\}", clean_text, re.DOTALL)`.  The leftmost match starts at
the first opening brace and the greedy dot extends to the last closing brace
of the text; if the first opening brace has no closing brace after it then no
later start position can have one either, and the search fails. -/
def greedySpan (l : List Char) : Option (List Char) :=
  match l.dropWhile (fun c => !(c == '{')) with
  | [] => none
  | c :: rest => (takeToLastClose rest).map (fun t => c :: t)

/-- JSON whitespace accepted between tokens by `json.loads`. -/
def jsonWs (c : Char) : Bool := c == ' ' || c == '\t' || c == '\n' || c == '\r'

/-- Skip JSON whitespace. -/
def skipWs (l : List Char) : List Char := l.dropWhile jsonWs

/-- Value of a hexadecimal digit, for string escapes. -/
def hexVal (c : Char) : Option Nat :=
  if c.toNat ≥ 48 && c.toNat ≤ 57 then some (c.toNat - 48)
  else if c.toNat ≥ 97 && c.toNat ≤ 102 then some (c.toNat - 87)
  else if c.toNat ≥ 65 && c.toNat ≤ 70 then some (c.toNat - 55)
  else none

/-- Body of a JSON string after the opening quote, in the strict mode of
`json.loads`: an unescaped control character is an error, and only the
standard escapes are accepted.  Returns the decoded characters and the
remainder after the closing quote. -/
def jpStringGo : List Char → Option (List Char × List Char)
  | [] => none
  | c :: rest =>
    if c == '"' then some ([], rest)
    else if c == '\\' then
      match rest with
      | [] => none
      | e :: rest2 =>
        if e == '"' || e == '\\' || e == '/' then
          (jpStringGo rest2).map (fun p => (e :: p.1, p.2))
        else if e == 'b' then (jpStringGo rest2).map (fun p => ('\x08' :: p.1, p.2))
        else if e == 'f' then (jpStringGo rest2).map (fun p => ('\x0c' :: p.1, p.2))
        else if e == 'n' then (jpStringGo rest2).map (fun p => ('\n' :: p.1, p.2))
        else if e == 'r' then (jpStringGo rest2).map (fun p => ('\r' :: p.1, p.2))
        else if e == 't' then (jpStringGo rest2).map (fun p => ('\t' :: p.1, p.2))
        else if e == 'u' then
          match rest2 with
          | h1 :: h2 :: h3 :: h4 :: rest3 =>
            match hexVal h1, hexVal h2, hexVal h3, hexVal h4 with
            | some a, some b, some c2, some d =>
              (jpStringGo rest3).map
                (fun p => (Char.ofNat (((a * 16 + b) * 16 + c2) * 16 + d) :: p.1, p.2))
            | _, _, _, _ => none
          | _ => none
        else none
    else if c.toNat < 32 then none
    else (jpStringGo rest).map (fun p => (c :: p.1, p.2))

/-- Integer part of a JSON number: an optional run of digits with no leading
zero (a lone zero stops immediately, as in the scanner regex of the Python
json module). -/
def jpIntPart : List Char → Option (List Char × List Char)
  | [] => none
  | c :: rest =>
    if c == '0' then some (['0'], rest)
    else if c.isDigit then
      some (c :: rest.takeWhile Char.isDigit, rest.dropWhile Char.isDigit)
    else none

/-- Optional fraction part of a JSON number. -/
def jpFracPart : List Char → List Char × List Char
  | '.' :: rest =>
    let ds := rest.takeWhile Char.isDigit
    if ds.isEmpty then ([], '.' :: rest) else ('.' :: ds, rest.dropWhile Char.isDigit)
  | l => ([], l)

/-- Optional exponent part of a JSON number. -/
def jpExpPart (l : List Char) : List Char × List Char :=
  match l with
  | e :: rest =>
    if e == 'e' || e == 'E' then
      match rest with
      | s :: rest2 =>
        if s == '+' || s == '-' then
          let ds := rest2.takeWhile Char.isDigit
          if ds.isEmpty then ([], l) else (e :: s :: ds, rest2.dropWhile Char.isDigit)
        else
          let ds := rest.takeWhile Char.isDigit
          if ds.isEmpty then ([], l) else (e :: ds, rest.dropWhile Char.isDigit)
      | [] => ([], l)
    else ([], l)
  | [] => ([], l)

/-- A JSON number lexeme: optional sign, integer part, optional fraction and
exponent.  Returns the lexeme characters and the remainder. -/
def jpNumber (l : List Char) : Option (List Char × List Char) :=
  match l with
  | '-' :: rest =>
    match jpIntPart rest with
    | some (ip, r1) =>
      let fp := jpFracPart r1
      let ep := jpExpPart fp.2
      some ('-' :: (ip ++ fp.1 ++ ep.1), ep.2)
    | none => none
  | _ =>
    match jpIntPart l with
    | some (ip, r1) =>
      let fp := jpFracPart r1
      let ep := jpExpPart fp.2
      some (ip ++ fp.1 ++ ep.1, ep.2)
    | none => none

mutual

/-- One JSON value, fuelled recursive descent mirroring the scanner of the
Python json module (strings, objects, arrays, literals, numbers, and the
NaN and Infinity extensions accepted by default).  Each recursive call
consumes at least one input character first, so fuel equal to the input
length plus one suffices. -/
def jpValue : Nat → List Char → Option (Json × List Char)
  | 0, _ => none
  | fuel + 1, l =>
    match l with
    | [] => none
    | c :: rest =>
      if c == '"' then
        (jpStringGo rest).map (fun p => (Json.str (String.mk p.1), p.2))
      else if c == '{' then
        match skipWs rest with
        | '}' :: r => some (Json.obj [], r)
        | l2 => (jpMembers fuel l2).map (fun p => (Json.obj p.1, p.2))
      else if c == '[' then
        match skipWs rest with
        | ']' :: r => some (Json.arr [], r)
        | l2 => (jpElems fuel l2).map (fun p => (Json.arr p.1, p.2))
      else if c == 'n' then
        match rest with
        | 'u' :: 'l' :: 'l' :: r => some (Json.null, r)
        | _ => none
      else if c == 't' then
        match rest with
        | 'r' :: 'u' :: 'e' :: r => some (Json.bool true, r)
        | _ => none
      else if c == 'f' then
        match rest with
        | 'a' :: 'l' :: 's' :: 'e' :: r => some (Json.bool false, r)
        | _ => none
      else if c == 'N' then
        match rest with
        | 'a' :: 'N' :: r => some (Json.num "NaN", r)
        | _ => none
      else if c == 'I' then
        match rest with
        | 'n' :: 'f' :: 'i' :: 'n' :: 'i' :: 't' :: 'y' :: r =>
          some (Json.num "Infinity", r)
        | _ => none
      else if c == '-' then
        match jpNumber l with
        | some (lx, r) => some (Json.num (String.mk lx), r)
        | none =>
          match rest with
          | 'I' :: 'n' :: 'f' :: 'i' :: 'n' :: 'i' :: 't' :: 'y' :: r =>
            some (Json.num "-Infinity", r)
          | _ => none
      else
        match jpNumber l with
        | some (lx, r) => some (Json.num (String.mk lx), r)
        | none => none

/-- Object members after the opening brace (first member position, leading
whitespace already skipped). -/
def jpMembers : Nat → List Char → Option (List (String × Json) × List Char)
  | 0, _ => none
  | fuel + 1, l =>
    match l with
    | '"' :: rest =>
      match jpStringGo rest with
      | none => none
      | some (k, r1) =>
        match skipWs r1 with
        | ':' :: r2 =>
          match jpValue fuel (skipWs r2) with
          | none => none
          | some (v, r3) =>
            match skipWs r3 with
            | ',' :: r4 =>
              (jpMembers fuel (skipWs r4)).map (fun p => ((String.mk k, v) :: p.1, p.2))
            | '}' :: r4 => some ([(String.mk k, v)], r4)
            | _ => none
        | _ => none
    | _ => none

/-- Array elements after the opening bracket (first element position,
leading whitespace already skipped). -/
def jpElems : Nat → List Char → Option (List Json × List Char)
  | 0, _ => none
  | fuel + 1, l =>
    match jpValue fuel l with
    | none => none
    | some (v, r1) =>
      match skipWs r1 with
      | ',' :: r2 => (jpElems fuel (skipWs r2)).map (fun p => (v :: p.1, p.2))
      | ']' :: r2 => some ([v], r2)
      | _ => none

end

/-- The model of `json.loads` on a character list: one JSON document with
optional surrounding whitespace; trailing non-whitespace is an error. -/
def jsonParse (l : List Char) : Option Json :=
  match jpValue (l.length + 1) (skipWs l) with
  | some (j, rest) => if (skipWs rest).isEmpty then some j else none
  | none => none

/-- Last-occurrence lookup in a parsed object, matching the fact that the
Python json module builds a dict in which a repeated key keeps the value
written last. -/
def jLookup (kvs : List (String × Json)) (k : String) : Option Json :=
  match kvs with
  | [] => none
  | kv :: rest =>
    match jLookup rest k with
    | some v => some v
    | none => if kv.1 == k then some kv.2 else none

/-- Whether a JSON number lexeme denotes zero: it has a digit and every
digit of its mantissa is zero (the NaN and Infinity lexemes have no digit
and are truthy, as in Python). -/
def numIsZero (lx : String) : Bool :=
  let m := lx.toList.takeWhile (fun c => !(c == 'e') && !(c == 'E'))
  m.any Char.isDigit && m.all (fun c => !c.isDigit || c == '0')

/-- Python truthiness of a parsed JSON value, as used by
`not data["candidates"]` (app.py lines 248, 294, 510). -/
def pyTruthy : Json → Bool
  | Json.null => false
  | Json.bool b => b
  | Json.num lx => !(numIsZero lx)
  | Json.str s => !s.isEmpty
  | Json.arr xs => !xs.isEmpty
  | Json.obj kvs => !kvs.isEmpty

/-- The guard `"candidates" in data and data["candidates"]` shared by the
three call sites (app.py lines 248, 294, 510).  The model covers dict
bodies, the only shape the provider returns; on a non-dict body the Python
membership operator behaves by its own rules and the sites end in their
generic exception handlers, which the theorems below do not exercise. -/
def candidates_ok (data : Json) : Bool :=
  match data with
  | Json.obj kvs =>
    match jLookup kvs "candidates" with
    | some v => pyTruthy v
    | none => false
  | _ => false

/-- Dict field access returning none where Python would raise. -/
def jGet (j : Json) (k : String) : Option Json :=
  match j with
  | Json.obj kvs => jLookup kvs k
  | _ => none

/-- List index access returning none where Python would raise. -/
def jIdx (j : Json) (n : Nat) : Option Json :=
  match j with
  | Json.arr xs => xs.get? n
  | _ => none

/-- String projection returning none where later Python string operations
would raise on a non-string. -/
def jStr : Json → Option String
  | Json.str s => some s
  | _ => none

/-- The path `data["candidates"][0]["content"]["parts"][0]["text"]` read by
all three call sites (app.py lines 251, 297, 513); none models the
exception path of a shape mismatch. -/
def candidateText (data : Json) : Option String := do
  let cands ← jGet data "candidates"
  let c0 ← jIdx cands 0
  let content ← jGet c0 "content"
  let parts ← jGet content "parts"
  let p0 ← jIdx parts 0
  let t ← jGet p0 "text"
  jStr t

/-- Outcome of the `scan_food` handling of a successful gateway body
(app.py lines 248-264); each constructor records the HTTP reply written by
the route: `ok` is 200 with the parsed payload, `invalidJson` is 500 with
the invalid-JSON-structure error and the raw text, `noJson` is 500 with the
no-JSON error and the raw text, `noCandidates` is 500 with the safety
message, and `serverError` is the outer exception handler (500 with the
formatted exception message). -/
inductive ScanResult where
  | ok (body : Json) : ScanResult
  | invalidJson (raw : String) : ScanResult
  | noJson (raw : String) : ScanResult
  | noCandidates : ScanResult
  | serverError : ScanResult
deriving Repr

/-- The extraction steps of `scan_food` (app.py lines 253-264): fence strip
and strip, greedy span search, `json.loads` on the span, with the two
distinct error replies. -/
def scanExtract (text : String) : ScanResult :=
  match greedySpan (cleanText text) with
  | none => ScanResult.noJson text
  | some sp =>
    match jsonParse sp with
    | some j => ScanResult.ok j
    | none => ScanResult.invalidJson text

/-- The post-gateway part of `scan_food` (app.py lines 248-264). -/
def scan_food_process (data : Json) : ScanResult :=
  if candidates_ok data then
    match candidateText data with
    | none => ScanResult.serverError
    | some t => scanExtract t
  else ScanResult.noCandidates

/-- Outcome of the `diet_plan` handling of a successful gateway body
(app.py lines 294-305): `ok` is 200 with the parsed payload, `noJson` is
500 with the no-JSON error and the raw text, `noCandidates` is 500 with the
could-not-generate message, and `planFailed` is the outer exception handler
(500 with the formatted exception message), reached in particular when
`json.loads` raises on the span, since the call on line 303 is not guarded
by a local try. -/
inductive DietResult where
  | ok (body : Json) : DietResult
  | noJson (raw : String) : DietResult
  | noCandidates : DietResult
  | planFailed : DietResult
deriving Repr

/-- The extraction steps of `diet_plan` (app.py lines 298-305). -/
def dietExtract (text : String) : DietResult :=
  match greedySpan (cleanText text) with
  | none => DietResult.noJson text
  | some sp =>
    match jsonParse sp with
    | some j => DietResult.ok j
    | none => DietResult.planFailed

/-- The post-gateway part of `diet_plan` (app.py lines 294-305). -/
def diet_plan_process (data : Json) : DietResult :=
  if candidates_ok data then
    match candidateText data with
    | none => DietResult.planFailed
    | some t => dietExtract t
  else DietResult.noCandidates

/-- Outcome of the `chat` handling of a successful gateway body (app.py
lines 510-514): `ok` is 200 echoing the reply text, `noCandidates` is 500
with the unable-to-respond message, `bellaError` is the outer exception
handler. -/
inductive ChatResult where
  | ok (reply : String) : ChatResult
  | noCandidates : ChatResult
  | bellaError : ChatResult
deriving Repr

/-- The post-gateway part of `chat` (app.py lines 510-514). -/
def chat_process (data : Json) : ChatResult :=
  if candidates_ok data then
    match candidateText data with
    | none => ChatResult.bellaError
    | some t => ChatResult.ok t
  else ChatResult.noCandidates

/-- Contiguous substring test on character lists, the semantics of the
Python membership operator on strings. -/
def pyContains (hay pat : List Char) : Bool :=
  match hay with
  | [] => pat.isEmpty
  | _ :: rest => pat.isPrefixOf hay || pyContains rest pat

/-- Python `str.lower()` as a character list. -/
def pyLower (s : String) : List Char := s.toList.map Char.toLower

/-- Python `name.split('/')[-1]`: the segment after the last slash. -/
def lastSlashSegment (l : List Char) : List Char :=
  l.foldl (fun acc c => if c == '/' then [] else acc ++ [c]) []

/-- One entry of the `models` array of the listing response, at the level
the source consumes it: its `name` and its `supportedGenerationMethods`
array (the default empty array of `m.get` covers an absent field). -/
structure ListedModel where
  name : String
  supportedGenerationMethods : List String
deriving Repr

/-- Outcome of the single listing call `requests.get(url, timeout=5)`
(app.py line 89): a raised exception anywhere inside the try block (a
transport error, a body that fails to parse, or a malformed entry) is the
`exn` constructor; otherwise a status code together with the `models` array
of the parsed body (an absent `models` key defaults to the empty array). -/
inductive ListOutcome where
  | exn (msg : String) : ListOutcome
  | resp (status : Nat) (models : List ListedModel) : ListOutcome

/-- The static fallback list of app.py lines 76-83, in source order. -/
def AVAILABLE_MODELS : List String :=
  ["gemini-1.5-flash",
   "gemini-1.5-pro",
   "gemini-2.0-flash",
   "gemini-1.5-flash-latest",
   "gemini-1.5-pro-latest",
   "gemini-1.0-pro"]

/-- The filter condition of the comprehension in app.py lines 96-102:
`generateContent` among the supported generation methods, and none of the
lowercased markers in the lowercased full model name. -/
def keepModel (m : ListedModel) : Bool :=
  m.supportedGenerationMethods.contains "generateContent"
    && !(pyContains (pyLower m.name) ("tts".toList))
    && !(pyContains (pyLower m.name) ("embed".toList))
    && !(pyContains (pyLower m.name) ("aqa".toList))

/-- The mapped value of the comprehension: `m['name'].split('/')[-1]`. -/
def shortName (m : ListedModel) : String :=
  String.mk (lastSlashSegment m.name.toList)

/-- The model directory `get_supported_models` (app.py lines 85-107).  On a
200 response the filtered comprehension is returned as built, including
when it is empty; the static list is reached only when the status is not
200 (the if falls through) or when something in the try block raises. -/
def get_supported_models (outcome : ListOutcome) : List String :=
  match outcome with
  | ListOutcome.exn _ => AVAILABLE_MODELS
  | ListOutcome.resp status ms =>
    if status = 200 then
      ms.filterMap (fun m => if keepModel m then some (shortName m) else none)
    else AVAILABLE_MODELS

/-- The body of one inference HTTP response, at the level `r.json()` and
`r.text` consume it: either it parses as JSON, or the decode error message
that `str(e)` would yield when `r.json()` raises. -/
inductive HttpBody where
  | json (j : Json) : HttpBody
  | notJson (decodeErrMsg : String) : HttpBody

/-- Outcome of one `requests.post` inference call (app.py line 123): a
transport exception with its message, or a response carrying the status
code, whether the content type header equals the exact string
`application/json`, the body, and the raw body text. -/
inductive CallOutcome where
  | exn (msg : String) : CallOutcome
  | resp (status : Nat) (ctJson : Bool) (body : HttpBody) (text : String) : CallOutcome

mutual

/-- Python repr of a parsed JSON value, the result of interpolating the
object returned by `r.json()` into the error f-string on app.py line 130. -/
def pyRepr : Json → String
  | Json.null => "None"
  | Json.bool b => if b then "True" else "False"
  | Json.num lx => lx
  | Json.str s => "\x27" ++ s ++ "\x27"
  | Json.arr xs => "[" ++ pyReprElems xs ++ "]"
  | Json.obj kvs => "\x7b" ++ pyReprMembers kvs ++ "\x7d"

def pyReprElems : List Json → String
  | [] => ""
  | [x] => pyRepr x
  | x :: y :: rest => pyRepr x ++ ", " ++ pyReprElems (y :: rest)

def pyReprMembers : List (String × Json) → String
  | [] => ""
  | [(k, v)] => "\x27" ++ k ++ "\x27: " ++ pyRepr v
  | (k, v) :: kv :: rest =>
    "\x27" ++ k ++ "\x27: " ++ pyRepr v ++ ", " ++ pyReprMembers (kv :: rest)

end

/-- The `error_data` computation of app.py line 129, in the cases where it
completes without raising: the repr of the parsed body when the content
type is `application/json`, the raw text otherwise.  The combination of a
json content type with an unparseable body raises before this value is
formed; the clause for it here is immaterial. -/
def errData (ctJson : Bool) (body : HttpBody) (text : String) : String :=
  match ctJson, body with
  | true, HttpBody.json j => pyRepr j
  | true, HttpBody.notJson _ => text
  | false, _ => text

/-- The `last_error` format of app.py line 130. -/
def apiErrMsg (status : Nat) (model : String) (ed : String) : String :=
  "API " ++ toString status ++ " (" ++ model ++ "): " ++ ed

/-- The message of the exception raised on app.py line 141. -/
def finalMsg (lastError : String) : String :=
  "All AI attempts failed. Final error: " ++ lastError

/-- The fallback loop of `call_gemini` (app.py lines 117-141).  The first
component is the returned body on the single success exit, or the message
of the exception raised after the loop.  The second component is the
observational trace: the models for which an HTTP call was issued, in
order.  Branches, in source order: a 200 response returns its parsed body;
a 200 response whose body read raises records the decode message and
continues; a non-200 response with json content type and unparseable body
raises while forming `error_data`, is caught, and continues; otherwise the
error is recorded and a 400 or 403 status breaks out of the loop; a
transport exception records its message and continues. -/
def call_gemini_go (oracle : String → CallOutcome) :
    List String → String → Except String Json × List String
  | [], lastError => (Except.error (finalMsg lastError), [])
  | m :: rest, lastError =>
    match oracle m with
    | CallOutcome.exn e =>
      let r := call_gemini_go oracle rest e
      (r.1, m :: r.2)
    | CallOutcome.resp status ctJson body text =>
      if status = 200 then
        match body with
        | HttpBody.json j => (Except.ok j, [m])
        | HttpBody.notJson de =>
          let r := call_gemini_go oracle rest de
          (r.1, m :: r.2)
      else
        match ctJson, body with
        | true, HttpBody.notJson de =>
          let r := call_gemini_go oracle rest de
          (r.1, m :: r.2)
        | _, _ =>
          let le := apiErrMsg status m (errData ctJson body text)
          if status = 400 ∨ status = 403 then
            (Except.error (finalMsg le), [m])
          else
            let r := call_gemini_go oracle rest le
            (r.1, m :: r.2)

/-- The invoker on an explicit candidate list, with the initial
`last_error = "No models attempted"` of app.py line 115. -/
def call_gemini_models (models : List String) (oracle : String → CallOutcome) :
    Except String Json × List String :=
  call_gemini_go oracle models "No models attempted"

/-- `call_gemini` (app.py lines 109-141): the candidate list comes from the
model directory, then the fallback loop runs.  The value is the parsed body
on success, or the message of the raised exception. -/
def call_gemini (listing : ListOutcome) (oracle : String → CallOutcome) :
    Except String Json :=
  (call_gemini_models (get_supported_models listing) oracle).1

/-- Whether one call outcome is the success shape of the loop: HTTP 200
with a body that parses, carrying that body. -/
def succBody (o : CallOutcome) : Option Json :=
  match o with
  | CallOutcome.resp st _ (HttpBody.json j) _ => if st = 200 then some j else none
  | _ => none

/-- Modelled from the spec: the first balanced brace substring of a text,
by depth counting over raw characters.  The spec states extraction succeeds
with exactly this span (section 3), while also stating the source span is
greedy and not brace-depth matched (sections 4.3 and 9); this definition
renders the first reading for comparison against the source behaviour. -/
def balAux (depth : Nat) : List Char → Option (List Char)
  | [] => none
  | c :: rest =>
    if c == '}' then
      if depth = 1 then some [c]
      else (balAux (depth - 1) rest).map (fun t => c :: t)
    else if c == '{' then (balAux (depth + 1) rest).map (fun t => c :: t)
    else (balAux depth rest).map (fun t => c :: t)

/-- Modelled from the spec: scan left to right for the earliest opening
brace from which the depth count closes, and return that span. -/
def firstBalancedSpan : List Char → Option (List Char)
  | [] => none
  | c :: rest =>
    if c == '{' then
      match balAux 1 rest with
      | some t => some (c :: t)
      | none => firstBalancedSpan rest
    else firstBalancedSpan rest

section Lemmas

/-- If the first `i` elements of a list fail to satisfy the stopping test
and the element at `i` meets it, dropWhile drops exactly `i` elements. -/
theorem dropWhile_eq_drop_of_first {q : Char → Bool} :
    ∀ (l : List Char) (i : Nat) (x : Char),
      (l.take i).all q = true → l.get? i = some x → q x = false →
      l.dropWhile q = l.drop i := by
  intro l
  induction l with
  | nil => intro i x _ hx _; simp at hx
  | cons c rest ih =>
    intro i x hall hx hqx
    cases i with
    | zero =>
      have hcx : c = x := by simpa using hx
      subst hcx
      simp [List.dropWhile_cons, hqx]
    | succ i =>
      rw [List.take_succ_cons, List.all_cons] at hall
      have hqc : q c = true := (Bool.and_eq_true _ _ |>.mp hall).1
      have htail : (rest.take i).all q = true := (Bool.and_eq_true _ _ |>.mp hall).2
      have hx2 : rest.get? i = some x := by simpa using hx
      rw [List.dropWhile_cons, if_pos hqc, List.drop_succ_cons]
      exact ih i x htail hx2 hqx

/-- A list with no closing brace has no greedy close prefix. -/
theorem takeToLastClose_eq_none :
    ∀ l : List Char, l.all (fun c => !(c == '}')) = true → takeToLastClose l = none := by
  intro l
  induction l with
  | nil => intro _; rfl
  | cons c rest ih =>
    intro h
    rw [List.all_cons, Bool.and_eq_true] at h
    have hc : (c == '}') = false := by
      cases hcc : c == '}' with
      | false => rfl
      | true => rw [hcc] at h; exact absurd h.1 (by simp)
    simp [takeToLastClose, ih h.2, hc]

/-- If the last closing brace of a list sits at index `k`, the greedy close
prefix is the prefix of length `k + 1`. -/
theorem takeToLastClose_eq_take :
    ∀ (l : List Char) (k : Nat), l.get? k = some '}' →
      (l.drop (k + 1)).all (fun c => !(c == '}')) = true →
      takeToLastClose l = some (l.take (k + 1)) := by
  intro l
  induction l with
  | nil => intro k hk _; simp at hk
  | cons c rest ih =>
    intro k hk hall
    cases k with
    | zero =>
      have hc : c = '}' := by simpa using hk
      have hrest : takeToLastClose rest = none :=
        takeToLastClose_eq_none rest (by simpa using hall)
      subst hc
      simp [takeToLastClose, hrest]
    | succ k =>
      have h1 : rest.get? k = some '}' := by simpa using hk
      have h2 : (rest.drop (k + 1)).all (fun c => !(c == '}')) = true := by
        simpa [List.drop_succ_cons] using hall
      simp [takeToLastClose, ih k h1 h2, List.take_succ_cons]

end Lemmas

/-- Claim C10, confirmed: when the listing call returns HTTP 200 and no
model passes the filter, the directory hands the invoker an empty candidate
list, the loop body never runs (the trace of issued HTTP calls is empty),
and the invocation fails with the initial last error, so the raised message
embeds the string No models attempted. -/
theorem c10_empty_directory_fails_without_calls (oracle : String → CallOutcome) :
    get_supported_models (ListOutcome.resp 200 []) = []
    ∧ call_gemini_models (get_supported_models (ListOutcome.resp 200 [])) oracle
        = (Except.error "All AI attempts failed. Final error: No models attempted", [])
    ∧ call_gemini (ListOutcome.resp 200 []) oracle
        = Except.error "All AI attempts failed. Final error: No models attempted" :=
  ⟨rfl, rfl, rfl⟩

/-- Claim C2, counterexample: a listing response with HTTP 200 whose single
model is embedding-only filters down to the empty list, and
`get_supported_models` returns that empty list, not the non-empty static
fallback list, refuting both the never-empty guarantee and the
fallback-on-empty-filtered-result guarantee. -/
theorem c2_counterexample :
    get_supported_models
        (ListOutcome.resp 200 [⟨"models/text-embedding-004", ["embedContent"]⟩]) = []
    ∧ AVAILABLE_MODELS ≠ [] :=
  ⟨rfl, by decide⟩

/-- Claim C2, amended: on a transport error (any raise inside the try
block) or on a non-200 response the directory returns exactly the static
fallback list in its fixed order and never raises; but on an HTTP 200
response the filtered comprehension is returned as built, so an empty
filtered result yields the empty list rather than the fallback. -/
theorem c2_amended_discovery_fallback :
    (∀ msg, get_supported_models (ListOutcome.exn msg) = AVAILABLE_MODELS)
    ∧ (∀ status ms, status ≠ 200 →
        get_supported_models (ListOutcome.resp status ms) = AVAILABLE_MODELS)
    ∧ (∀ ms : List ListedModel, (∀ m ∈ ms, keepModel m = false) →
        get_supported_models (ListOutcome.resp 200 ms) = []) := by
  refine ⟨fun _ => rfl, fun status ms h => by simp [get_supported_models, h], fun ms h => ?_⟩
  have hunf : get_supported_models (ListOutcome.resp 200 ms)
      = ms.filterMap (fun m => if keepModel m then some (shortName m) else none) := rfl
  rw [hunf, List.filterMap_eq_nil_iff]
  intro m hm
  simp [h m hm]

/-- Witness for the amended claim C2 at concrete inputs. -/
theorem c2_amended_discovery_fallback_witness :
    get_supported_models (ListOutcome.resp 404 []) = AVAILABLE_MODELS
    ∧ get_supported_models (ListOutcome.resp 200 [⟨"models/aqa", ["generateContent"]⟩]) = [] :=
  ⟨c2_amended_discovery_fallback.2.1 404 [] (by decide),
   c2_amended_discovery_fallback.2.2 [⟨"models/aqa", ["generateContent"]⟩] (by decide)⟩

/-- Claim C5, confirmed: on an HTTP 200 listing response the directory
output is exactly the provider-ordered sublist of models that support
generateContent and whose lowercased provider-qualified name avoids the
tts, embed and aqa markers, each mapped to its segment after the last
slash; the conjunct evaluates a mixed synthetic listing. -/
theorem c5_filtering_correctness :
    (∀ ms : List ListedModel,
      get_supported_models (ListOutcome.resp 200 ms)
        = (ms.filter (fun m =>
            m.supportedGenerationMethods.contains "generateContent"
              && !(pyContains (pyLower m.name) ("tts".toList))
              && !(pyContains (pyLower m.name) ("embed".toList))
              && !(pyContains (pyLower m.name) ("aqa".toList)))).map shortName)
    ∧ get_supported_models (ListOutcome.resp 200
        [⟨"models/gemini-1.5-flash", ["generateContent"]⟩,
         ⟨"models/text-embedding-004", ["embedContent"]⟩,
         ⟨"models/gemini-2.5-flash-preview-TTS", ["generateContent"]⟩,
         ⟨"models/aqa", ["generateContent"]⟩,
         ⟨"models/gemini-2.0-flash", ["generateContent", "countTokens"]⟩])
      = ["gemini-1.5-flash", "gemini-2.0-flash"] := by
  constructor
  · intro ms
    show get_supported_models (ListOutcome.resp 200 ms) = (ms.filter keepModel).map shortName
    have key : ∀ ms2 : List ListedModel,
        ms2.filterMap (fun m => if keepModel m then some (shortName m) else none)
          = (ms2.filter keepModel).map shortName := by
      intro ms2
      induction ms2 with
      | nil => rfl
      | cons m rest ih =>
        cases h : keepModel m <;>
          simp [List.filterMap_cons, List.filter_cons, h, ih]
    rw [show get_supported_models (ListOutcome.resp 200 ms)
        = ms.filterMap (fun m => if keepModel m then some (shortName m) else none) from rfl]
    exact key ms
  · rfl

/-- Claim C7, counterexample: on the input whose cleaned text is an object
holding a closing brace inside a string literal, extraction succeeds and
returns the parse of the greedy span (the whole text), while the first
balanced brace substring is a shorter span that is not valid JSON, so the
payload is not the parse of the first balanced substring. -/
theorem c7_counterexample :
    scanExtract "\x7b\"a\": \"\x7d\"\x7d"
      = ScanResult.ok (Json.obj [("a", Json.str "\x7d")])
    ∧ firstBalancedSpan (cleanText "\x7b\"a\": \"\x7d\"\x7d")
      = some ("\x7b\"a\": \"\x7d".toList)
    ∧ (firstBalancedSpan (cleanText "\x7b\"a\": \"\x7d\"\x7d")).bind jsonParse = none :=
  ⟨rfl, rfl, rfl⟩

/-- Claim C7, amended: when extraction succeeds the payload is valid JSON
and equals the parse of the greedy span of the cleaned text, first opening
brace to last closing brace; content outside that span is never merged into
the payload.  The span is not the first balanced brace substring. -/
theorem c7_amended_payload_is_greedy_span_parse (s : String) (p : Json)
    (h : scanExtract s = ScanResult.ok p) :
    (greedySpan (cleanText s)).bind jsonParse = some p := by
  cases hg : greedySpan (cleanText s) with
  | none =>
    simp only [scanExtract, hg] at h
    exact ScanResult.noConfusion h
  | some sp =>
    cases hp : jsonParse sp with
    | none =>
      simp only [scanExtract, hg, hp] at h
      exact ScanResult.noConfusion h
    | some j =>
      simp only [scanExtract, hg, hp, ScanResult.ok.injEq] at h
      simp [hp, h]

/-- Witness for the amended claim C7 at a concrete input. -/
theorem c7_amended_payload_witness :
    (greedySpan (cleanText "\x7b\"a\": 1\x7d")).bind jsonParse
      = some (Json.obj [("a", Json.num "1")]) :=
  c7_amended_payload_is_greedy_span_parse "\x7b\"a\": 1\x7d"
    (Json.obj [("a", Json.num "1")]) rfl

/-- Claim C8, counterexample: the fenced bad-json input named by the claim
has no closing brace once the fences are stripped, so both extraction call
sites report the no-JSON-found failure carrying the raw text, not the
malformed-JSON failure the claim requires for it. -/
theorem c8_counterexample :
    scanExtract "```json\n\x7bbad json\n```"
      = ScanResult.noJson "```json\n\x7bbad json\n```"
    ∧ dietExtract "```json\n\x7bbad json\n```"
      = DietResult.noJson "```json\n\x7bbad json\n```" :=
  ⟨rfl, rfl⟩

/-- Claim C8, amended: when the cleaned text has no greedy span, both
extraction call sites return their no-JSON error carrying the raw text;
when the span exists but fails to parse, scan_food returns its
invalid-JSON-structure error carrying the raw text (not the span), while
diet_plan falls into its generic exception handler, so only scan_food keeps
a dedicated malformed-JSON reply. -/
theorem c8_amended_failure_modes (text : String) :
    (greedySpan (cleanText text) = none →
      scanExtract text = ScanResult.noJson text
        ∧ dietExtract text = DietResult.noJson text)
    ∧ (∀ sp, greedySpan (cleanText text) = some sp → jsonParse sp = none →
      scanExtract text = ScanResult.invalidJson text
        ∧ dietExtract text = DietResult.planFailed) := by
  constructor
  · intro h
    constructor <;> simp [scanExtract, dietExtract, h]
  · intro sp h hp
    constructor <;> simp [scanExtract, dietExtract, h, hp]

/-- Witness for the amended claim C8 at a concrete input. -/
theorem c8_amended_failure_modes_witness :
    scanExtract "no braces here" = ScanResult.noJson "no braces here"
    ∧ dietExtract "no braces here" = DietResult.noJson "no braces here" :=
  (c8_amended_failure_modes "no braces here").1 rfl

/-- Claim C9, confirmed: a gateway body that lacks the candidates field, or
whose candidates field is the empty array, makes every one of the three
call sites return its dedicated error reply instead of a success payload. -/
theorem c9_empty_candidates_rejected (kvs : List (String × Json))
    (h : jLookup kvs "candidates" = none
      ∨ jLookup kvs "candidates" = some (Json.arr [])) :
    scan_food_process (Json.obj kvs) = ScanResult.noCandidates
    ∧ diet_plan_process (Json.obj kvs) = DietResult.noCandidates
    ∧ chat_process (Json.obj kvs) = ChatResult.noCandidates := by
  have hok : candidates_ok (Json.obj kvs) = false := by
    show (match jLookup kvs "candidates" with
          | some v => pyTruthy v
          | none => false) = false
    rcases h with h | h <;> rw [h] <;> rfl
  exact ⟨by simp [scan_food_process, hok],
         by simp [diet_plan_process, hok],
         by simp [chat_process, hok]⟩

/-- Witness for claim C9 at a concrete body with an empty candidates
array. -/
theorem c9_empty_candidates_rejected_witness :
    scan_food_process (Json.obj [("candidates", Json.arr [])]) = ScanResult.noCandidates
    ∧ diet_plan_process (Json.obj [("candidates", Json.arr [])]) = DietResult.noCandidates
    ∧ chat_process (Json.obj [("candidates", Json.arr [])]) = ChatResult.noCandidates :=
  c9_empty_candidates_rejected [("candidates", Json.arr [])] (Or.inr rfl)

/-- Claim C1, counterexample: the first candidate answers HTTP 400 with a
json content type and a body that fails to parse; forming the error detail
raises, the handler records the decode message and continues, so the second
candidate is attempted and the invocation ends in its success instead of
aborting in failure after the 400. -/
theorem c1_counterexample :
    call_gemini_models ["m1", "m2"]
      (fun m =>
        if m == "m1" then CallOutcome.resp 400 true (HttpBody.notJson "Expecting value") "garbage"
        else CallOutcome.resp 200 false (HttpBody.json (Json.obj [("ok", Json.bool true)])) "")
    = (Except.ok (Json.obj [("ok", Json.bool true)]), ["m1", "m2"]) := rfl

/-- Claim C1, amended: when a candidate answers HTTP 400 or 403 and its
error detail can be formed without raising (the content type is not
json, or the body parses), the loop records the formatted error and breaks:
the trace stops at that candidate and the invocation fails with that error.
Only a 400 or 403 whose json-typed body fails to parse escapes the abort. -/
theorem c1_terminal_status_aborts (oracle : String → CallOutcome)
    (m : String) (rest : List String) (lastError : String)
    (status : Nat) (ctJson : Bool) (body : HttpBody) (text : String)
    (hresp : oracle m = CallOutcome.resp status ctJson body text)
    (hterm : status = 400 ∨ status = 403)
    (hread : ctJson = false ∨ ∃ j, body = HttpBody.json j) :
    call_gemini_go oracle (m :: rest) lastError
      = (Except.error (finalMsg (apiErrMsg status m (errData ctJson body text))), [m]) := by
  rcases hterm with h4 | h4 <;> subst h4 <;>
    rcases hread with hct | ⟨j, hbody⟩
  · subst hct
    cases body <;> simp [call_gemini_go, hresp, errData]
  · subst hbody
    cases ctJson <;> simp [call_gemini_go, hresp, errData]
  · subst hct
    cases body <;> simp [call_gemini_go, hresp, errData]
  · subst hbody
    cases ctJson <;> simp [call_gemini_go, hresp, errData]

/-- Witness for the amended claim C1: the middle of the canned sequence
fail 500 then fail 400 then success; once the 500 of the first model is the
recorded error, the second model answers a plain-text 400 and the loop
aborts with only that model in the remaining trace, never reaching the
third model. -/
theorem c1_terminal_status_aborts_witness :
    call_gemini_go
      (fun m =>
        if m == "m2" then CallOutcome.resp 400 false (HttpBody.notJson "x") "Bad Request"
        else CallOutcome.resp 200 false (HttpBody.json Json.null) "")
      ["m2", "m3"] "API 500 (m1): server side error"
    = (Except.error (finalMsg (apiErrMsg 400 "m2"
        (errData false (HttpBody.notJson "x") "Bad Request"))), ["m2"]) :=
  c1_terminal_status_aborts
    (fun m =>
      if m == "m2" then CallOutcome.resp 400 false (HttpBody.notJson "x") "Bad Request"
      else CallOutcome.resp 200 false (HttpBody.json Json.null) "")
    "m2" ["m3"] "API 500 (m1): server side error" 400 false (HttpBody.notJson "x") "Bad Request"
    rfl (Or.inl rfl) (Or.inl rfl)

/-- Claim C3, counterexample: with two failing candidates the invocation
fails with the formatted exception message built from the last recorded
error only; the message does not contain the identifier of the first
attempted model, so the failure value does not carry the ordered
attempted-model list the claim requires. -/
theorem c3_counterexample :
    (call_gemini_models ["zzq1", "zzq2"] (fun m => CallOutcome.exn ("boom-" ++ m))).1
      = Except.error "All AI attempts failed. Final error: boom-zzq2"
    ∧ pyContains ("All AI attempts failed. Final error: boom-zzq2".toList) ("zzq1".toList)
      = false :=
  ⟨rfl, rfl⟩

/-- The error the loop body records for one non-exception HTTP response
that does not succeed (app.py lines 125-135): the decode message when
`r.json()` raises on a 200 body (line 127) or, on a non-200 with json
content type, while forming `error_data` (line 129); otherwise the
formatted API error of line 130.  A 200 response with a parseable body is
the success exit and records nothing. -/
def recordedErrorResp (status : Nat) (ctJson : Bool) (body : HttpBody)
    (text : String) (model : String) : Option String :=
  if status = 200 then
    match body with
    | HttpBody.json _ => none
    | HttpBody.notJson de => some de
  else if ctJson then
    match body with
    | HttpBody.notJson de => some de
    | HttpBody.json j => some (apiErrMsg status model (errData true (HttpBody.json j) text))
  else
    some (apiErrMsg status model (errData false body text))

/-- The error the loop body records (app.py lines 121-139) when one HTTP
call does not succeed, as a function of that call alone: the exception
message for a transport exception (line 138), and the per-response value
above otherwise. -/
def recordedError : CallOutcome → String → Option String
  | CallOutcome.exn e, _ => some e
  | CallOutcome.resp status ctJson body text, model =>
    recordedErrorResp status ctJson body text model

/-- A continue step of the loop preserves the last-recorded-error
description of a failing run: the head candidate records its error, and the
final message is that error when the tail attempts nothing, or the error
recorded by the last candidate the tail attempts. -/
theorem c3_cont_all (oracle : String → CallOutcome) (m : String)
    (rest : List String) (le e2 msg : String)
    (hgo : call_gemini_go oracle (m :: rest) le
      = ((call_gemini_go oracle rest e2).1, m :: (call_gemini_go oracle rest e2).2))
    (hrec : recordedError (oracle m) m = some e2)
    (ihx : ∀ msg2, (call_gemini_go oracle rest e2).1 = Except.error msg2 →
      ((call_gemini_go oracle rest e2).2 = [] → msg2 = finalMsg e2)
      ∧ (∀ m2, (call_gemini_go oracle rest e2).2.getLast? = some m2 →
          ∃ e, recordedError (oracle m2) m2 = some e ∧ msg2 = finalMsg e))
    (hfail : (call_gemini_go oracle (m :: rest) le).1 = Except.error msg) :
    ((call_gemini_go oracle (m :: rest) le).2 = [] → msg = finalMsg le)
    ∧ (∀ m2, (call_gemini_go oracle (m :: rest) le).2.getLast? = some m2 →
        ∃ e, recordedError (oracle m2) m2 = some e ∧ msg = finalMsg e) := by
  have hfail2 : (call_gemini_go oracle rest e2).1 = Except.error msg := by
    rw [hgo] at hfail
    exact hfail
  constructor
  · intro hnil
    rw [hgo] at hnil
    exact absurd hnil (by simp)
  · intro m2 hlast
    have hlast2 : (m :: (call_gemini_go oracle rest e2).2).getLast? = some m2 := by
      rw [hgo] at hlast
      exact hlast
    cases hatt : (call_gemini_go oracle rest e2).2 with
    | nil =>
      rw [hatt] at hlast2
      simp at hlast2
      subst hlast2
      exact ⟨e2, hrec, (ihx msg hfail2).1 hatt⟩
    | cons a t2 =>
      rw [hatt, List.getLast?_cons_cons] at hlast2
      exact (ihx msg hfail2).2 m2 (by rw [hatt]; exact hlast2)

/-- A break step of the loop (400 or 403 with recordable error) satisfies
the last-recorded-error description: the trace holds the one candidate and
the final message is the error it recorded. -/
theorem c3_break_all (oracle : String → CallOutcome) (m : String)
    (rest : List String) (le le2 msg : String)
    (hgo : call_gemini_go oracle (m :: rest) le
      = (Except.error (finalMsg le2), [m]))
    (hrec : recordedError (oracle m) m = some le2)
    (hfail : (call_gemini_go oracle (m :: rest) le).1 = Except.error msg) :
    ((call_gemini_go oracle (m :: rest) le).2 = [] → msg = finalMsg le)
    ∧ (∀ m2, (call_gemini_go oracle (m :: rest) le).2.getLast? = some m2 →
        ∃ e, recordedError (oracle m2) m2 = some e ∧ msg = finalMsg e) := by
  have hmsg : finalMsg le2 = msg := by
    rw [hgo] at hfail
    simpa using hfail
  constructor
  · intro hnil
    rw [hgo] at hnil
    exact absurd hnil (by simp)
  · intro m2 hlast
    rw [hgo] at hlast
    simp at hlast
    subst hlast
    exact ⟨le2, hrec, hmsg.symm⟩

/-- Every failing run of the loop raises the formatted message built from
the last recorded error: the error recorded by the last attempted
candidate, or the incoming last error when no candidate was attempted. -/
theorem go_last_error (oracle : String → CallOutcome) :
    ∀ (models : List String) (le msg : String),
      (call_gemini_go oracle models le).1 = Except.error msg →
      ((call_gemini_go oracle models le).2 = [] → msg = finalMsg le)
      ∧ (∀ m, (call_gemini_go oracle models le).2.getLast? = some m →
          ∃ e, recordedError (oracle m) m = some e ∧ msg = finalMsg e) := by
  intro models
  induction models with
  | nil =>
    intro le msg hfail
    simp only [call_gemini_go] at hfail
    refine ⟨fun _ => ?_, fun m hm => ?_⟩
    · injection hfail with h
      exact h.symm
    · simp [call_gemini_go] at hm
  | cons m rest ih =>
    intro le msg hfail
    cases ho : oracle m with
    | exn e =>
      refine c3_cont_all oracle m rest le e msg ?_ ?_ (ih e) hfail
      · simp [call_gemini_go, ho]
      · rw [ho]
        rfl
    | resp st ct body t =>
      by_cases h200 : st = 200
      · subst h200
        cases body with
        | json jj =>
          have hgo : call_gemini_go oracle (m :: rest) le = (Except.ok jj, [m]) := by
            simp [call_gemini_go, ho]
          rw [hgo] at hfail
          exact absurd hfail (by simp)
        | notJson de =>
          refine c3_cont_all oracle m rest le de msg ?_ ?_ (ih de) hfail
          · simp [call_gemini_go, ho]
          · rw [ho]
            rfl
      · cases ct with
        | true =>
          cases body with
          | notJson de =>
            refine c3_cont_all oracle m rest le de msg ?_ ?_ (ih de) hfail
            · simp [call_gemini_go, ho, h200]
            · rw [ho]
              simp [recordedError, recordedErrorResp, h200]
          | json jj =>
            by_cases h4 : st = 400 ∨ st = 403
            · refine c3_break_all oracle m rest le
                (apiErrMsg st m (errData true (HttpBody.json jj) t)) msg ?_ ?_ hfail
              · simp [call_gemini_go, ho, h200, h4]
              · rw [ho]
                simp [recordedError, recordedErrorResp, h200]
            · refine c3_cont_all oracle m rest le
                (apiErrMsg st m (errData true (HttpBody.json jj) t)) msg ?_ ?_
                (ih (apiErrMsg st m (errData true (HttpBody.json jj) t))) hfail
              · simp [call_gemini_go, ho, h200, h4]
              · rw [ho]
                simp [recordedError, recordedErrorResp, h200]
        | false =>
          cases body with
          | notJson de =>
            by_cases h4 : st = 400 ∨ st = 403
            · refine c3_break_all oracle m rest le
                (apiErrMsg st m (errData false (HttpBody.notJson de) t)) msg ?_ ?_ hfail
              · simp [call_gemini_go, ho, h200, h4]
              · rw [ho]
                simp [recordedError, recordedErrorResp, h200]
            · refine c3_cont_all oracle m rest le
                (apiErrMsg st m (errData false (HttpBody.notJson de) t)) msg ?_ ?_
                (ih (apiErrMsg st m (errData false (HttpBody.notJson de) t))) hfail
              · simp [call_gemini_go, ho, h200, h4]
              · rw [ho]
                simp [recordedError, recordedErrorResp, h200]
          | json jj =>
            by_cases h4 : st = 400 ∨ st = 403
            · refine c3_break_all oracle m rest le
                (apiErrMsg st m (errData false (HttpBody.json jj) t)) msg ?_ ?_ hfail
              · simp [call_gemini_go, ho, h200, h4]
              · rw [ho]
                simp [recordedError, recordedErrorResp, h200]
            · refine c3_cont_all oracle m rest le
                (apiErrMsg st m (errData false (HttpBody.json jj) t)) msg ?_ ?_
                (ih (apiErrMsg st m (errData false (HttpBody.json jj) t))) hfail
              · simp [call_gemini_go, ho, h200, h4]
              · rw [ho]
                simp [recordedError, recordedErrorResp, h200]

/-- Claim C3, amended: every unsuccessful invocation, the 400 or 403 abort
included, is signalled through one raised exception, modelled as an error
value, whose message is the fixed prefix followed by the last recorded
error: the error recorded for the last attempted candidate, or the initial
No-models-attempted value when the candidate list attempts nothing.  The
attempted-model list is not part of the signalled value. -/
theorem c3_failure_is_single_message (oracle : String → CallOutcome)
    (models : List String) (msg : String)
    (hfail : (call_gemini_models models oracle).1 = Except.error msg) :
    (∀ m, (call_gemini_models models oracle).2.getLast? = some m →
      ∃ e, recordedError (oracle m) m = some e
        ∧ msg = "All AI attempts failed. Final error: " ++ e)
    ∧ ((call_gemini_models models oracle).2 = [] →
      msg = "All AI attempts failed. Final error: No models attempted") := by
  have h := go_last_error oracle models "No models attempted" msg hfail
  exact ⟨h.2, fun hnil => h.1 hnil⟩

/-- Witness for the amended claim C3 at a concrete failing run: the last
attempted model is the second one, and the raised message is exactly the
prefix followed by the error its call recorded. -/
theorem c3_failure_is_single_message_witness :
    ∃ e, recordedError (CallOutcome.exn "boom") "b" = some e
      ∧ "All AI attempts failed. Final error: boom"
        = "All AI attempts failed. Final error: " ++ e :=
  (c3_failure_is_single_message (fun _ => CallOutcome.exn "boom") ["a", "b"]
    "All AI attempts failed. Final error: boom" rfl).1 "b" rfl

/-- Claim C6, confirmed: whenever the cleaned text has its first opening
brace at index i and its last closing brace at a later index j, the
candidate span of the search is exactly the greedy slice from i to j, and
on a successful extraction the payload is the parse of exactly that slice. -/
theorem c6_greedy_span_characterization (s : String) (i j : Nat)
    (hij : i < j)
    (hi : (cleanText s).get? i = some '{')
    (hfirst : ((cleanText s).take i).all (fun c => !(c == '{')) = true)
    (hj : (cleanText s).get? j = some '}')
    (hlast : ((cleanText s).drop (j + 1)).all (fun c => !(c == '}')) = true) :
    greedySpan (cleanText s) = some (((cleanText s).drop i).take (j + 1 - i))
    ∧ (∀ p, scanExtract s = ScanResult.ok p →
        jsonParse (((cleanText s).drop i).take (j + 1 - i)) = some p) := by
  have hspan : greedySpan (cleanText s)
      = some (((cleanText s).drop i).take (j + 1 - i)) := by
    set l := cleanText s with hl
    have hdw : l.dropWhile (fun c => !(c == '{')) = l.drop i :=
      dropWhile_eq_drop_of_first l i '{' hfirst hi (by simp)
    have hi2 : l[i]? = some '{' := by rw [← List.get?_eq_getElem?]; exact hi
    have hlen : i < l.length := (List.getElem?_eq_some.mp hi2).1
    have hbrace : l[i] = '{' := (List.getElem?_eq_some.mp hi2).2
    have hdrop : l.drop i = '{' :: l.drop (i + 1) := by
      rw [List.drop_eq_getElem_cons hlen, hbrace]
    have hget2 : (l.drop (i + 1)).get? (j - i - 1) = some '}' := by
      rw [List.get?_eq_getElem?, List.getElem?_drop]
      have harith : i + 1 + (j - i - 1) = j := by omega
      rw [harith, ← List.get?_eq_getElem?]
      exact hj
    have hall2 : ((l.drop (i + 1)).drop (j - i - 1 + 1)).all (fun c => !(c == '}'))
        = true := by
      rw [List.drop_drop]
      have harith : i + 1 + (j - i - 1 + 1) = j + 1 := by omega
      rw [harith]
      exact hlast
    have htk := takeToLastClose_eq_take (l.drop (i + 1)) (j - i - 1) hget2 hall2
    have hmain : greedySpan l
        = (takeToLastClose (l.drop (i + 1))).map (fun t => '{' :: t) := by
      unfold greedySpan
      rw [hdw, hdrop]
    rw [hmain, htk, Option.map_some', hdrop]
    have harith : j + 1 - i = (j - i - 1 + 1) + 1 := by omega
    rw [harith, List.take_succ_cons]
  refine ⟨hspan, ?_⟩
  intro p hp
  cases hq : jsonParse (((cleanText s).drop i).take (j + 1 - i)) with
  | none =>
    simp only [scanExtract, hspan, hq] at hp
    exact ScanResult.noConfusion hp
  | some q =>
    simp only [scanExtract, hspan, hq, ScanResult.ok.injEq] at hp
    rw [hp]

/-- Witness for claim C6 at a concrete input whose first opening brace is
at index 0 and last closing brace at index 6. -/
theorem c6_greedy_span_characterization_witness :
    greedySpan (cleanText "\x7b\"a\":1\x7d")
      = some (((cleanText "\x7b\"a\":1\x7d").drop 0).take 7)
    ∧ jsonParse (((cleanText "\x7b\"a\":1\x7d").drop 0).take 7)
      = some (Json.obj [("a", Json.num "1")]) :=
  ⟨(c6_greedy_span_characterization "\x7b\"a\":1\x7d" 0 6 (by omega) rfl rfl rfl rfl).1,
   (c6_greedy_span_characterization "\x7b\"a\":1\x7d" 0 6 (by omega) rfl rfl rfl rfl).2
     (Json.obj [("a", Json.num "1")]) rfl⟩

/-- The behavioural contract of one fallback run used to settle claim C4:
the trace is a prefix of the candidate list, every traced candidate except
possibly the last failed, and the run succeeds with body j exactly when the
last traced candidate answered 200 with parseable body j. -/
def goSpec (oracle : String → CallOutcome) (pr : Except String Json × List String)
    (models : List String) : Prop :=
  pr.2 <+: models
  ∧ (∀ i m', pr.2.get? i = some m' → i + 1 < pr.2.length → succBody (oracle m') = none)
  ∧ (∀ j, pr.1 = Except.ok j ↔
      ∃ m', pr.2.getLast? = some m' ∧ succBody (oracle m') = some j)

/-- The contract holds for the empty-list exit of the loop. -/
theorem goSpec_nil_case (oracle : String → CallOutcome) (msg : String) :
    goSpec oracle (Except.error msg, []) [] := by
  refine ⟨⟨[], rfl⟩, ?_, ?_⟩
  · intro i m' hget _
    simp at hget
  · intro j
    constructor
    · intro h
      exact Except.noConfusion h
    · rintro ⟨m', hm', _⟩
      simp at hm'

/-- The contract holds for a failing stop (the break on 400 or 403). -/
theorem goSpec_stop_case (oracle : String → CallOutcome) (m : String)
    (rest : List String) (msg : String)
    (hfail : succBody (oracle m) = none) :
    goSpec oracle (Except.error msg, [m]) (m :: rest) := by
  refine ⟨⟨rest, rfl⟩, ?_, ?_⟩
  · intro i m' _ hlen
    simp at hlen
  · intro j
    constructor
    · intro h
      exact Except.noConfusion h
    · rintro ⟨m', hm', hs⟩
      simp at hm'
      subst hm'
      rw [hfail] at hs
      exact Option.noConfusion hs

/-- The contract holds for the immediate success exit. -/
theorem goSpec_success_case (oracle : String → CallOutcome) (m : String)
    (rest : List String) (j0 : Json)
    (hs : succBody (oracle m) = some j0) :
    goSpec oracle (Except.ok j0, [m]) (m :: rest) := by
  refine ⟨⟨rest, rfl⟩, ?_, ?_⟩
  · intro i m' _ hlen
    simp at hlen
  · intro j
    constructor
    · intro h
      injection h with hj
      exact ⟨m, by simp, by rw [hs, hj]⟩
    · rintro ⟨m', hm', hs'⟩
      simp at hm'
      subst hm'
      rw [hs] at hs'
      injection hs' with hj
      rw [hj]

/-- The contract is preserved by a continue step, for a candidate whose
outcome is not the success shape. -/
theorem goSpec_cont_case (oracle : String → CallOutcome) (m : String)
    (rest : List String) (pr : Except String Json × List String)
    (hfail : succBody (oracle m) = none)
    (h : goSpec oracle pr rest) :
    goSpec oracle (pr.1, m :: pr.2) (m :: rest) := by
  obtain ⟨hpre, hmid, hiff⟩ := h
  refine ⟨?_, ?_, ?_⟩
  · obtain ⟨t, ht⟩ := hpre
    exact ⟨t, by rw [List.cons_append, ht]⟩
  · intro i m' hget hlen
    cases i with
    | zero =>
      have hm : m = m' := by simpa using hget
      subst hm
      exact hfail
    | succ i =>
      have hget2 : pr.2.get? i = some m' := by simpa using hget
      have hlen2 : i + 1 < pr.2.length := by
        simp only [List.length_cons] at hlen
        omega
      exact hmid i m' hget2 hlen2
  · intro j
    cases hatt : pr.2 with
    | nil =>
      constructor
      · intro hok
        rcases (hiff j).mp hok with ⟨m', hm', _⟩
        rw [hatt] at hm'
        simp at hm'
      · rintro ⟨m', hm', hs⟩
        simp at hm'
        subst hm'
        rw [hfail] at hs
        exact Option.noConfusion hs
    | cons a t2 =>
      constructor
      · intro hok
        rcases (hiff j).mp hok with ⟨m', hm', hs⟩
        refine ⟨m', ?_, hs⟩
        show (m :: a :: t2).getLast? = some m'
        rw [List.getLast?_cons_cons]
        rw [hatt] at hm'
        exact hm'
      · rintro ⟨m', hm', hs⟩
        apply (hiff j).mpr
        refine ⟨m', ?_, hs⟩
        rw [hatt]
        have hm2 : (m :: a :: t2).getLast? = some m' := hm'
        rw [List.getLast?_cons_cons] at hm2
        exact hm2

/-- Every run of the fallback loop satisfies the contract. -/
theorem go_spec_all (oracle : String → CallOutcome) :
    ∀ (models : List String) (le : String),
      goSpec oracle (call_gemini_go oracle models le) models := by
  intro models
  induction models with
  | nil =>
    intro le
    exact goSpec_nil_case oracle (finalMsg le)
  | cons m rest ih =>
    intro le
    cases ho : oracle m with
    | exn e =>
      have hgo : call_gemini_go oracle (m :: rest) le
          = ((call_gemini_go oracle rest e).1, m :: (call_gemini_go oracle rest e).2) := by
        simp [call_gemini_go, ho]
      rw [hgo]
      exact goSpec_cont_case oracle m rest _ (by simp [succBody, ho]) (ih e)
    | resp st ct body t =>
      by_cases h200 : st = 200
      · subst h200
        cases body with
        | json jj =>
          have hgo : call_gemini_go oracle (m :: rest) le = (Except.ok jj, [m]) := by
            simp [call_gemini_go, ho]
          rw [hgo]
          exact goSpec_success_case oracle m rest jj (by simp [succBody, ho])
        | notJson de =>
          have hgo : call_gemini_go oracle (m :: rest) le
              = ((call_gemini_go oracle rest de).1, m :: (call_gemini_go oracle rest de).2) := by
            simp [call_gemini_go, ho]
          rw [hgo]
          exact goSpec_cont_case oracle m rest _ (by simp [succBody, ho]) (ih de)
      · have hfail : succBody (oracle m) = none := by
          rw [ho]
          cases body <;> simp [succBody, h200]
        cases ct with
        | true =>
          cases body with
          | notJson de =>
            have hgo : call_gemini_go oracle (m :: rest) le
                = ((call_gemini_go oracle rest de).1, m :: (call_gemini_go oracle rest de).2) := by
              simp [call_gemini_go, ho, h200]
            rw [hgo]
            exact goSpec_cont_case oracle m rest _ hfail (ih de)
          | json jj =>
            by_cases h4 : st = 400 ∨ st = 403
            · have hgo : call_gemini_go oracle (m :: rest) le
                  = (Except.error (finalMsg (apiErrMsg st m
                      (errData true (HttpBody.json jj) t))), [m]) := by
                simp [call_gemini_go, ho, h200, h4]
              rw [hgo]
              exact goSpec_stop_case oracle m rest _ hfail
            · have hgo : call_gemini_go oracle (m :: rest) le
                  = ((call_gemini_go oracle rest
                        (apiErrMsg st m (errData true (HttpBody.json jj) t))).1,
                     m :: (call_gemini_go oracle rest
                        (apiErrMsg st m (errData true (HttpBody.json jj) t))).2) := by
                simp [call_gemini_go, ho, h200, h4]
              rw [hgo]
              exact goSpec_cont_case oracle m rest _ hfail (ih _)
        | false =>
          cases body with
          | notJson de =>
            by_cases h4 : st = 400 ∨ st = 403
            · have hgo : call_gemini_go oracle (m :: rest) le
                  = (Except.error (finalMsg (apiErrMsg st m
                      (errData false (HttpBody.notJson de) t))), [m]) := by
                simp [call_gemini_go, ho, h200, h4]
              rw [hgo]
              exact goSpec_stop_case oracle m rest _ hfail
            · have hgo : call_gemini_go oracle (m :: rest) le
                  = ((call_gemini_go oracle rest
                        (apiErrMsg st m (errData false (HttpBody.notJson de) t))).1,
                     m :: (call_gemini_go oracle rest
                        (apiErrMsg st m (errData false (HttpBody.notJson de) t))).2) := by
                simp [call_gemini_go, ho, h200, h4]
              rw [hgo]
              exact goSpec_cont_case oracle m rest _ hfail (ih _)
          | json jj =>
            by_cases h4 : st = 400 ∨ st = 403
            · have hgo : call_gemini_go oracle (m :: rest) le
                  = (Except.error (finalMsg (apiErrMsg st m
                      (errData false (HttpBody.json jj) t))), [m]) := by
                simp [call_gemini_go, ho, h200, h4]
              rw [hgo]
              exact goSpec_stop_case oracle m rest _ hfail
            · have hgo : call_gemini_go oracle (m :: rest) le
                  = ((call_gemini_go oracle rest
                        (apiErrMsg st m (errData false (HttpBody.json jj) t))).1,
                     m :: (call_gemini_go oracle rest
                        (apiErrMsg st m (errData false (HttpBody.json jj) t))).2) := by
                simp [call_gemini_go, ho, h200, h4]
              rw [hgo]
              exact goSpec_cont_case oracle m rest _ hfail (ih _)

/-- Claim C4, confirmed: the trace of attempted candidates is a prefix of
the candidate list; all attempted candidates but the last failed; the run
returns a success body exactly when the last attempted candidate answered
HTTP 200 with that parseable body, which is the only success exit; and a
200 response whose body fails to parse records the decode error and
advances to the next candidate. -/
theorem c4_success_only_via_first_parseable_200 (oracle : String → CallOutcome)
    (models : List String) :
    ((call_gemini_models models oracle).2 <+: models)
    ∧ (∀ i m', (call_gemini_models models oracle).2.get? i = some m' →
        i + 1 < (call_gemini_models models oracle).2.length →
        succBody (oracle m') = none)
    ∧ (∀ j, (call_gemini_models models oracle).1 = Except.ok j ↔
        ∃ m', (call_gemini_models models oracle).2.getLast? = some m'
          ∧ succBody (oracle m') = some j)
    ∧ (∀ m rest le ct de t, oracle m = CallOutcome.resp 200 ct (HttpBody.notJson de) t →
        call_gemini_go oracle (m :: rest) le
          = ((call_gemini_go oracle rest de).1, m :: (call_gemini_go oracle rest de).2)) := by
  have h := go_spec_all oracle models "No models attempted"
  exact ⟨h.1, h.2.1, h.2.2, fun m rest le ct de t ho => by simp [call_gemini_go, ho]⟩

/-- Witness for claim C4: a 200 response with unparseable body advances to
the next candidate at a concrete input. -/
theorem c4_success_only_via_first_parseable_200_witness :
    call_gemini_go (fun _ => CallOutcome.resp 200 true (HttpBody.notJson "nope") "x")
        ["u1", "u2"] "No models attempted"
      = ((call_gemini_go (fun _ => CallOutcome.resp 200 true (HttpBody.notJson "nope") "x")
            ["u2"] "nope").1,
         "u1" :: (call_gemini_go (fun _ => CallOutcome.resp 200 true (HttpBody.notJson "nope") "x")
            ["u2"] "nope").2) :=
  (c4_success_only_via_first_parseable_200
      (fun _ => CallOutcome.resp 200 true (HttpBody.notJson "nope") "x")
      ["u1", "u2"]).2.2.2 "u1" ["u2"] "No models attempted" true "nope" "x" rfl
